import Mathlib

/-!
Verification development for the TTB label verification frontend.

The data model is a shallow embedding of the TypeScript interfaces in
src/frontend/src/types/index.ts; the client functions come from
src/frontend/src/lib/api.ts, src/frontend/src/app/page.tsx,
src/frontend/src/components/LabelForm.tsx,
src/frontend/src/components/VerificationResults.tsx and
src/frontend/src/components/ComparisonCard.tsx.  The backend comparator
and field extractor are not part of the frontend sources; where a
property concerns them they are modelled from the design document, and
each such definition says so in its doc comment.
-/

namespace TTB

/-- The closed enumeration of verifiable fields: brand, type, abv, volume. -/
inductive FieldKey where
  | brand
  | type
  | abv
  | volume
deriving DecidableEq, Repr

/-- BoundingBox from types/index.ts: x, y, width, height (TS numbers). -/
structure BoundingBox where
  x : Int
  y : Int
  width : Int
  height : Int
deriving DecidableEq, Repr

/-- ExtractedData from types/index.ts: four nullable field strings plus a
nullable error string.  TS `string | null` is embedded as `Option String`. -/
structure ExtractedData where
  brand : Option String
  type : Option String
  abv : Option String
  volume : Option String
  error : Option String
deriving DecidableEq, Repr

/-- Reading an ExtractedData record at a FieldKey. -/
def ExtractedData.get (d : ExtractedData) : FieldKey → Option String
  | .brand => d.brand
  | .type => d.type
  | .abv => d.abv
  | .volume => d.volume

/-- BoundingBoxes from types/index.ts: one nullable box per field. -/
structure BoundingBoxes where
  brand : Option BoundingBox
  type : Option BoundingBox
  abv : Option BoundingBox
  volume : Option BoundingBox
deriving DecidableEq, Repr

/-- Reading a BoundingBoxes record at a FieldKey. -/
def BoundingBoxes.get (b : BoundingBoxes) : FieldKey → Option BoundingBox
  | .brand => b.brand
  | .type => b.type
  | .abv => b.abv
  | .volume => b.volume

/-- ImageResult from types/index.ts. -/
structure ImageResult where
  image_index : Int
  original_filename : String
  ocr_raw_text : String
  extracted_data : ExtractedData
  bounding_boxes : BoundingBoxes
  annotated_image_base64 : String
deriving DecidableEq, Repr

/-- FieldComparison from types/index.ts: a match flag and four nullable
strings.  The TS field `match` is a Lean keyword, hence the quoted name. -/
structure FieldComparison where
  «match» : Bool
  form_value : Option String
  label_value : Option String
  normalized_form : Option String
  normalized_label : Option String
deriving DecidableEq, Repr

/-- The `field_results` object of ComparisonResult: each of the four keys
is optional (`brand?: FieldComparison`, and so on). -/
structure FieldResults where
  brand : Option FieldComparison
  type : Option FieldComparison
  abv : Option FieldComparison
  volume : Option FieldComparison
deriving DecidableEq, Repr

/-- Reading a FieldResults record at a FieldKey. -/
def FieldResults.get (r : FieldResults) : FieldKey → Option FieldComparison
  | .brand => r.brand
  | .type => r.type
  | .abv => r.abv
  | .volume => r.volume

/-- ComparisonResult from types/index.ts. -/
structure ComparisonResult where
  is_match : Bool
  field_results : FieldResults
  explanation : String
deriving DecidableEq, Repr

/-- LabelVerificationResponse from types/index.ts. -/
structure LabelVerificationResponse where
  success : Bool
  results : List ImageResult
  comparison : ComparisonResult
  error : Option String
deriving DecidableEq, Repr

/-- FormData from types/index.ts: the four operator-typed strings
(non-nullable in the client). -/
structure FormData where
  brand : String
  type : String
  abv : String
  volume : String
deriving DecidableEq, Repr

/-- Reading a FormData record at a FieldKey. -/
def FormData.get (fd : FormData) : FieldKey → String
  | .brand => fd.brand
  | .type => fd.type
  | .abv => fd.abv
  | .volume => fd.volume

/-- An uploaded image file, abstracted to its identity. -/
structure File where
  name : String
deriving DecidableEq, Repr

/-! ### Client functions -/

/-- What a rendered comparison card can be: the fallback card shown when no
FieldComparison was supplied, or a full card for a comparison. -/
inductive CardView where
  | noData (field : String)
  | card (field : String) (c : FieldComparison)
deriving DecidableEq, Repr

/-- Whether a card is the fallback card. -/
def CardView.isNoData : CardView → Bool
  | .noData _ => true
  | .card _ _ => false

/-- ComparisonCard from components/ComparisonCard.tsx: with no comparison it
renders the muted card whose right side reads the fallback text; otherwise it
renders the full match/mismatch card for the given comparison. -/
def ComparisonCard (field : String) (comparison : Option FieldComparison) :
    CardView :=
  match comparison with
  | none => .noData field
  | some c => .card field c

/-- The observable output of the VerificationResults component: the overall
status header, the explanation text, the annotated image source when one is
shown, and the four comparison cards in render order. -/
structure RenderedResults where
  headerIsMatch : Bool
  explanation : String
  annotatedImage : Option String
  cards : List CardView
deriving DecidableEq, Repr

/-- VerificationResults from components/VerificationResults.tsx: it reads
`results[0]` as the image result, shows the annotated image only when that
result exists and its base64 string is truthy (non-empty), and renders one
ComparisonCard for each of Brand, Type, ABV and Volume from
`comparison.field_results`. -/
def VerificationResults (response : LabelVerificationResponse) :
    RenderedResults :=
  let imageResult := response.results.head?
  { headerIsMatch := response.comparison.is_match
    explanation := response.comparison.explanation
    annotatedImage :=
      match imageResult with
      | some r =>
          if r.annotated_image_base64 = "" then none
          else some r.annotated_image_base64
      | none => none
    cards :=
      [ComparisonCard "Brand" response.comparison.field_results.brand,
       ComparisonCard "Type" response.comparison.field_results.type,
       ComparisonCard "ABV" response.comparison.field_results.abv,
       ComparisonCard "Volume" response.comparison.field_results.volume] }

/-- The render position of each field card in VerificationResults. -/
def FieldKey.idx : FieldKey → Nat
  | .brand => 0
  | .type => 1
  | .abv => 2
  | .volume => 3

/-- The display name used for each field card in VerificationResults. -/
def FieldKey.displayName : FieldKey → String
  | .brand => "Brand"
  | .type => "Type"
  | .abv => "ABV"
  | .volume => "Volume"

/-- handleSubmit from app/page.tsx, projected to the verifyLabel call it
makes: with no selected image it returns early and makes no call; otherwise
it calls verifyLabel with the one-element list holding the selected image and
the current form data. -/
def handleSubmit (selectedImage : Option File) (formData : FormData) :
    Option (List File × FormData) :=
  match selectedImage with
  | none => none
  | some img => some ([img], formData)

/-- handleChange from components/LabelForm.tsx: the object passed to
onFormChange is the spread of the current form data with the one key
replaced, as in the source object literal with a computed key. -/
def handleChange (formData : FormData) (key : FieldKey) (value : String) :
    FormData :=
  match key with
  | .brand => { formData with brand := value }
  | .type => { formData with type := value }
  | .abv => { formData with abv := value }
  | .volume => { formData with volume := value }

/-- The fetch response as seen by verifyLabel in lib/api.ts: the ok flag, the
numeric status, the body parsed as a LabelVerificationResponse (the value
`response.json()` resolves to on the ok path), and the `detail` field of the
body parsed as JSON on the error path — `none` when the body is not JSON
(the catch substitutes an empty object) or carries no string detail. -/
structure FetchResponse where
  ok : Bool
  status : Nat
  payload : LabelVerificationResponse
  errDetail : Option String
deriving DecidableEq, Repr

/-- JavaScript `a || b` for a possibly-absent string `a`: a missing or empty
(falsy) string selects the fallback. -/
def jsOrString (s : Option String) (fallback : String) : String :=
  match s with
  | some d => if d = "" then fallback else d
  | none => fallback

/-- The response handling of verifyLabel in lib/api.ts: on ok it returns the
parsed body; otherwise it throws an Error whose message is
`error.detail || "HTTP error! status: " + status`. -/
def verifyLabelHandle (r : FetchResponse) :
    Except String LabelVerificationResponse :=
  if r.ok then Except.ok r.payload
  else Except.error
    (jsOrString r.errDetail ("HTTP error! status: " ++ toString r.status))

/-! ### Spec-modelled backend components

The backend Normalizer, Comparator and Field Extractor live outside the
frontend sources, so they are modelled here from the design document.  The
per-field canonicalization is the closed set of strategies the design calls
for, kept abstract as a parameter `canon : FieldKey → String → Option String`
(a canonicalization returning `none` on a parse failure); the structural
behaviour of comparison and verdict is what the document fixes. -/

/-- Modelled from the spec: the backend per-field comparison step of the
Normalizer and Comparator, which is not under the frontend sources.  A
FieldComparison is produced whenever at least one side supplied a value; a
field missing on either side is reported with match false rather than
omitted; when both sides are present the match flag is equality of the
canonical forms, with a canonicalization failure (`none`) forcing match
false and a null normalized value for that side. -/
def compareField (canon : FieldKey → String → Option String) (k : FieldKey)
    (formVal labelVal : Option String) : Option FieldComparison :=
  match formVal, labelVal with
  | none, none => none
  | some f, none => some ⟨false, some f, none, canon k f, none⟩
  | none, some l => some ⟨false, none, some l, none, canon k l⟩
  | some f, some l =>
      let nf := canon k f
      let nl := canon k l
      some ⟨(match nf, nl with
             | some a, some b => a == b
             | _, _ => false),
            some f, some l, nf, nl⟩

/-- Modelled from the spec: the comparator applied keywise to the form side
and the label side, building the field_results object. -/
def buildFieldResults (canon : FieldKey → String → Option String)
    (form : FieldKey → Option String) (label : ExtractedData) :
    FieldResults :=
  { brand := compareField canon .brand (form .brand) label.brand
    type := compareField canon .type (form .type) label.type
    abv := compareField canon .abv (form .abv) label.abv
    volume := compareField canon .volume (form .volume) label.volume }

/-- The FieldComparisons actually present in a field_results object, in key
order. -/
def presentComparisons (fr : FieldResults) : List FieldComparison :=
  [fr.brand, fr.type, fr.abv, fr.volume].filterMap id

/-- Modelled from the spec: the overall verdict of the Comparator, which is
not under the frontend sources — the logical AND over all produced
FieldComparisons, with an empty comparison set yielding false. -/
def overallVerdict (fr : FieldResults) : Bool :=
  !(presentComparisons fr).isEmpty &&
    (presentComparisons fr).all (fun c => c.«match»)

/-- Modelled from the spec: the ComparisonResult assembled by the Comparator
from the form fields and the extracted label fields.  The explanation is a
deterministic function of the comparisons; its wording is not fixed here. -/
def buildComparisonResult (canon : FieldKey → String → Option String)
    (form : FieldKey → Option String) (label : ExtractedData)
    (explain : FieldResults → String) : ComparisonResult :=
  let fr := buildFieldResults canon form label
  { is_match := overallVerdict fr
    field_results := fr
    explanation := explain fr }

/-- The raw outcome of the vision extraction call, before the Field
Extractor shapes it: a possibly-absent raw string per field (an absent or
empty answer both mean the model found nothing) and a failure flag for a
timeout or malformed response. -/
structure VisionRaw where
  brand : Option String
  type : Option String
  abv : Option String
  volume : Option String
  failed : Bool
deriving DecidableEq, Repr

/-- Modelled from the spec: the Field Extractor representation rule — a
field value that was not found is represented as null and never as the empty
string. -/
def normalizeRawField (v : Option String) : Option String :=
  match v with
  | some s => if s = "" then none else some s
  | none => none

/-- Modelled from the spec: the Field Extractor, which is not under the
frontend sources.  A failed vision call is surfaced as a non-null error
string with all four values null; otherwise each raw field is kept, with
not-found values represented as null, never as the empty string. -/
def fieldExtract (raw : VisionRaw) : ExtractedData :=
  if raw.failed then
    { brand := none, type := none, abv := none, volume := none
      error := some "extraction failed" }
  else
    { brand := normalizeRawField raw.brand
      type := normalizeRawField raw.type
      abv := normalizeRawField raw.abv
      volume := normalizeRawField raw.volume
      error := none }

/-! ### Helper lemmas -/

/-- Keywise description of buildFieldResults. -/
theorem buildFieldResults_get (canon : FieldKey → String → Option String)
    (form : FieldKey → Option String) (label : ExtractedData)
    (k : FieldKey) :
    (buildFieldResults canon form label).get k =
      compareField canon k (form k) (label.get k) := by
  cases k <;> rfl

/-- The verdict is true exactly on a nonempty all-match comparison set. -/
theorem overallVerdict_eq_true_iff (fr : FieldResults) :
    overallVerdict fr = true ↔
      presentComparisons fr ≠ [] ∧
        ∀ c ∈ presentComparisons fr, c.«match» = true := by
  unfold overallVerdict
  rw [Bool.and_eq_true, List.all_eq_true]
  rw [Bool.not_eq_true', List.isEmpty_eq_false_iff_exists_mem]
  constructor
  · rintro ⟨⟨c, hc⟩, hall⟩
    exact ⟨fun h => by simp [h] at hc, hall⟩
  · rintro ⟨hne, hall⟩
    refine ⟨?_, hall⟩
    cases h : presentComparisons fr with
    | nil => exact absurd h hne
    | cons a l => exact ⟨a, by simp [h]⟩

/-- The extractor representation rule never yields the empty string. -/
theorem normalizeRawField_ne_empty (v : Option String) :
    normalizeRawField v ≠ some "" := by
  cases v with
  | none => simp [normalizeRawField]
  | some s =>
      by_cases h : s = "" <;> simp [normalizeRawField, h]

/-! ### Claims -/

/-- Claim C1: in every ComparisonResult the Comparator produces, is_match is
true iff every present FieldComparison has match true, and is_match is false
when the comparison set is empty. -/
theorem is_match_iff_all_field_results_match
    (canon : FieldKey → String → Option String)
    (form : FieldKey → Option String) (label : ExtractedData)
    (explain : FieldResults → String) :
    (presentComparisons
        (buildComparisonResult canon form label explain).field_results ≠ [] →
      ((buildComparisonResult canon form label explain).is_match = true ↔
        ∀ c ∈ presentComparisons
          (buildComparisonResult canon form label explain).field_results,
            c.«match» = true)) ∧
    (presentComparisons
        (buildComparisonResult canon form label explain).field_results = [] →
      (buildComparisonResult canon form label explain).is_match = false) := by
  constructor
  · intro hne
    rw [show (buildComparisonResult canon form label explain).is_match =
        overallVerdict (buildFieldResults canon form label) from rfl]
    rw [overallVerdict_eq_true_iff]
    exact ⟨fun h => h.2, fun h => ⟨hne, h⟩⟩
  · intro hemp
    rw [show (buildComparisonResult canon form label explain).is_match =
        overallVerdict (buildFieldResults canon form label) from rfl]
    unfold overallVerdict
    rw [show presentComparisons
        (buildComparisonResult canon form label explain).field_results =
        presentComparisons (buildFieldResults canon form label) from rfl]
      at hemp
    simp [hemp]

/-- Witness for C1: on a concrete all-matching input the theorem yields
is_match true. -/
theorem is_match_iff_all_field_results_match_witness :
    (buildComparisonResult (fun _ s => some s) (fun _ => some "a")
      ⟨some "a", some "a", some "a", some "a", none⟩
      (fun _ => "")).is_match = true := by
  have h := is_match_iff_all_field_results_match (fun _ s => some s)
    (fun _ => some "a") ⟨some "a", some "a", some "a", some "a", none⟩
    (fun _ => "")
  exact (h.1 (by decide)).mpr (by decide)

/-- Counterexample to claim C2: the ExtractedData record of the client types
carries no independent is_alcohol_label or quality_ok flags — no pair of
boolean projections can vary freely alongside the five declared components,
because those five components already determine the record. -/
theorem extractedData_no_independent_quality_flags :
    ¬ ∃ (isAlcoholLabel qualityOk : ExtractedData → Bool),
      Function.Surjective (fun d : ExtractedData =>
        (d.brand, d.type, d.abv, d.volume, d.error,
          isAlcoholLabel d, qualityOk d)) := by
  rintro ⟨f, g, hs⟩
  obtain ⟨d1, h1⟩ := hs (none, none, none, none, none, true, true)
  obtain ⟨d2, h2⟩ := hs (none, none, none, none, none, false, true)
  have hd : d1 = d2 := by
    cases d1; cases d2
    simp only [Prod.mk.injEq] at h1 h2
    simp_all
  rw [hd] at h1
  simp only [Prod.mk.injEq] at h1 h2
  rw [h2.2.2.2.2.2.1] at h1
  exact Bool.false_ne_true h1.2.2.2.2.2.1

/-- Claim C2 as amended: every ExtractedData record is exactly a mapping
from the four FieldKeys to an optional string value together with an
optional error string — and nothing more. -/
theorem extractedData_components_exact :
    Function.Bijective (fun d : ExtractedData =>
      ((fun k => d.get k, d.error) :
        (FieldKey → Option String) × Option String)) := by
  constructor
  · intro d1 d2 h
    have hf : ∀ k, d1.get k = d2.get k :=
      fun k => congrFun (congrArg Prod.fst h) k
    have he : d1.error = d2.error := congrArg Prod.snd h
    have h1 := hf .brand
    have h2 := hf .type
    have h3 := hf .abv
    have h4 := hf .volume
    cases d1; cases d2
    simp only [ExtractedData.get] at h1 h2 h3 h4
    simp_all
  · rintro ⟨F, e⟩
    refine ⟨⟨F .brand, F .type, F .abv, F .volume, e⟩, ?_⟩
    simp only [Prod.mk.injEq]
    refine ⟨funext fun k => ?_, trivial⟩
    cases k <;> rfl

/-- Claim C3: a FieldComparison is present for every key both sides
supplied; a key missing on one side only is reported with match false
rather than omitted; a key is absent from field_results only when both
sides have no value; and the renderer shows one card per key at its render
position, falling back to the no-data card exactly when that key has no
FieldComparison. -/
theorem field_results_presence_and_noData_fallback
    (canon : FieldKey → String → Option String)
    (form : FieldKey → Option String) (label : ExtractedData)
    (k : FieldKey) (resp : LabelVerificationResponse) :
    (form k ≠ none ∨ label.get k ≠ none →
      (buildFieldResults canon form label).get k ≠ none) ∧
    (∀ c, (buildFieldResults canon form label).get k = some c →
      form k = none ∨ label.get k = none → c.«match» = false) ∧
    ((buildFieldResults canon form label).get k = none →
      form k = none ∧ label.get k = none) ∧
    (VerificationResults resp).cards.length = 4 ∧
    (VerificationResults resp).cards[k.idx]? =
      some (ComparisonCard k.displayName
        (resp.comparison.field_results.get k)) ∧
    (∀ f, ComparisonCard f none = CardView.noData f) := by
  rw [buildFieldResults_get]
  refine ⟨?_, ?_, ?_, ?_, ?_, fun f => rfl⟩
  · rcases hf : form k with _ | f <;> rcases hl : label.get k with _ | l <;>
      simp [compareField]
  · intro c hc hor
    rcases hf : form k with _ | f <;> rcases hl : label.get k with _ | l
    · rw [hf, hl] at hc
      simp [compareField] at hc
    · rw [hf, hl] at hc
      simp only [compareField] at hc
      injection hc with hc
      exact hc ▸ rfl
    · rw [hf, hl] at hc
      simp only [compareField] at hc
      injection hc with hc
      exact hc ▸ rfl
    · rw [hf, hl] at hor
      rcases hor with h | h <;> exact absurd h (Option.some_ne_none _)
  · intro hn
    rcases hf : form k with _ | f <;> rcases hl : label.get k with _ | l <;>
      rw [hf, hl] at hn <;> simp [compareField] at hn
    exact ⟨rfl, rfl⟩
  · rfl
  · cases k <;> rfl

/-- Witness for C3: on a concrete input where only the form supplied the
brand, the comparison for brand is present. -/
theorem field_results_presence_and_noData_fallback_witness :
    (buildFieldResults (fun _ s => some s) (fun _ => some "x")
      ⟨none, none, none, none, none⟩).get .brand ≠ none := by
  have h := field_results_presence_and_noData_fallback (fun _ s => some s)
    (fun _ => some "x") ⟨none, none, none, none, none⟩ .brand
    ⟨true, [], ⟨true, ⟨none, none, none, none⟩, ""⟩, none⟩
  exact h.1 (Or.inl (by decide))

/-- Claim C4: a field value not found is represented as null and never as
the empty string; the raw optional values pass unchanged into the
FieldComparison the client consumes; and at that record an empty-string
value and a null value are distinguishable. -/
theorem absent_is_null_never_empty
    (raw : VisionRaw) (k : FieldKey)
    (canon : FieldKey → String → Option String)
    (fv lv : Option String) :
    (fieldExtract raw).get k ≠ some "" ∧
    (∀ c, compareField canon k fv lv = some c →
      c.form_value = fv ∧ c.label_value = lv) ∧
    (∀ c1 c2 : FieldComparison,
      c1.form_value = some "" → c2.form_value = none → c1 ≠ c2) ∧
    (∀ c1 c2 : FieldComparison,
      c1.label_value = some "" → c2.label_value = none → c1 ≠ c2) := by
  refine ⟨?_, ?_, ?_, ?_⟩
  · unfold fieldExtract
    by_cases hfail : raw.failed <;> cases k <;>
      simp [hfail, ExtractedData.get, normalizeRawField_ne_empty]
  · intro c hc
    rcases fv with _ | f <;> rcases lv with _ | l <;>
      simp [compareField] at hc <;> rw [← hc] <;> exact ⟨rfl, rfl⟩
  · intro c1 c2 h1 h2 he
    rw [he, h2] at h1
    exact Option.noConfusion h1
  · intro c1 c2 h1 h2 he
    rw [he, h2] at h1
    exact Option.noConfusion h1

/-- Witness for C4: the raw values of a concrete comparison pass through
unchanged. -/
theorem absent_is_null_never_empty_witness :
    (⟨false, some "x", none, some "x", none⟩ : FieldComparison).form_value =
        some "x" ∧
      (⟨false, some "x", none, some "x", none⟩ :
        FieldComparison).label_value = none := by
  have h := absent_is_null_never_empty ⟨none, none, none, none, false⟩
    .brand (fun _ s => some s) (some "x") none
  exact h.2.1 ⟨false, some "x", none, some "x", none⟩ rfl

/-- Claim C5: a LabelVerificationResponse is exactly its four components
success, results, comparison and error, and an ImageResult carries the OCR
raw text, the extracted data, a mapping from each FieldKey to an optional
BoundingBox, and the annotated image — every combination of those four is
realized by some ImageResult. -/
theorem response_shape_exact_and_imageResult_carries :
    Function.Bijective (fun r : LabelVerificationResponse =>
      (r.success, r.results, r.comparison, r.error)) ∧
    Function.Surjective (fun i : ImageResult =>
      ((i.ocr_raw_text, i.extracted_data,
        fun k => i.bounding_boxes.get k, i.annotated_image_base64) :
        String × ExtractedData × (FieldKey → Option BoundingBox) ×
          String)) := by
  refine ⟨⟨?_, ?_⟩, ?_⟩
  · intro a b h
    cases a; cases b
    simp only [Prod.mk.injEq] at h
    simp_all
  · rintro ⟨s, rs, c, e⟩
    exact ⟨⟨s, rs, c, e⟩, rfl⟩
  · rintro ⟨t, ed, f, a⟩
    refine ⟨⟨0, "", t, ed, ⟨f .brand, f .type, f .abv, f .volume⟩, a⟩, ?_⟩
    have hfun : (fun k =>
        BoundingBoxes.get ⟨f .brand, f .type, f .abv, f .volume⟩ k) = f :=
      funext fun k => by cases k <;> rfl
    exact congrArg (fun g => (t, ed, g, a)) hfun

/-- Claim C6: the page submits exactly the one-element list holding the
selected image, and the results display is a function of the comparison and
of results[0] alone — two responses agreeing there render identically. -/
theorem single_image_sent_and_first_result_read
    (img : File) (fd : FormData)
    (r1 r2 : LabelVerificationResponse) :
    (∀ call, handleSubmit (some img) fd = some call →
      call.1 = [img] ∧ call.1.length = 1) ∧
    (r1.comparison = r2.comparison → r1.results.head? = r2.results.head? →
      VerificationResults r1 = VerificationResults r2) := by
  constructor
  · intro call h
    simp only [handleSubmit, Option.some.injEq] at h
    rw [← h]
    exact ⟨rfl, rfl⟩
  · intro hc hh
    unfold VerificationResults
    rw [hc, hh]

/-- Witness for C6: the concrete call made for a concrete image is the
singleton list of that image. -/
theorem single_image_sent_and_first_result_read_witness :
    (([⟨"label.jpg"⟩], ⟨"b", "t", "a", "v"⟩) :
        List File × FormData).1 = [⟨"label.jpg"⟩] ∧
      (([⟨"label.jpg"⟩], ⟨"b", "t", "a", "v"⟩) :
        List File × FormData).1.length = 1 := by
  have h := single_image_sent_and_first_result_read ⟨"label.jpg"⟩
    ⟨"b", "t", "a", "v"⟩
    ⟨true, [], ⟨true, ⟨none, none, none, none⟩, ""⟩, none⟩
    ⟨true, [], ⟨true, ⟨none, none, none, none⟩, ""⟩, none⟩
  exact h.1 ([⟨"label.jpg"⟩], ⟨"b", "t", "a", "v"⟩) rfl

/-- Claim C7: a FieldComparison is exactly its five components — the match
flag and the four nullable strings — and each key of a field_results object
holds at most one FieldComparison. -/
theorem fieldComparison_shape_and_at_most_one_per_key
    (fr : FieldResults) (k : FieldKey) :
    Function.Bijective (fun c : FieldComparison =>
      (c.«match», c.form_value, c.label_value, c.normalized_form,
        c.normalized_label)) ∧
    (∀ c1 c2, fr.get k = some c1 → fr.get k = some c2 → c1 = c2) := by
  constructor
  · constructor
    · intro a b h
      cases a; cases b
      simp only [Prod.mk.injEq] at h
      simp_all
    · rintro ⟨m, f, l, nf, nl⟩
      exact ⟨⟨m, f, l, nf, nl⟩, rfl⟩
  · intro c1 c2 h1 h2
    rw [h1] at h2
    exact (Option.some.injEq _ _ ▸ h2).symm ▸ rfl

/-- Witness for C7: a concrete key of a concrete field_results object holds
a unique comparison. -/
theorem fieldComparison_shape_and_at_most_one_per_key_witness :
    (⟨true, none, none, none, none⟩ : FieldComparison) =
      ⟨true, none, none, none, none⟩ := by
  have h := fieldComparison_shape_and_at_most_one_per_key
    ⟨some ⟨true, none, none, none, none⟩, none, none, none⟩ .brand
  exact h.2 ⟨true, none, none, none, none⟩ ⟨true, none, none, none, none⟩
    rfl rfl

/-- Counterexample to claim C8: on a non-ok response whose body parses as
JSON and has the detail field, but that detail is the empty string, the
thrown message is the fallback, not the detail — the JavaScript or-operator
treats the empty string as falsy. -/
theorem verifyLabel_empty_detail_uses_fallback :
    verifyLabelHandle
        ⟨false, 500,
          ⟨true, [], ⟨true, ⟨none, none, none, none⟩, ""⟩, none⟩,
          some ""⟩ =
      Except.error "HTTP error! status: 500" ∧
    "HTTP error! status: 500" ≠ "" := by
  exact ⟨rfl, by decide⟩

/-- Claim C8 as amended: on an ok response verifyLabel returns the parsed
body; on a non-ok response it throws an Error whose message is the detail
field when the body parses as JSON and carries a non-empty string detail,
and otherwise the fallback naming the HTTP status. -/
theorem verifyLabel_response_handling (r : FetchResponse) :
    (r.ok = true → verifyLabelHandle r = Except.ok r.payload) ∧
    (r.ok = false → ∀ d, r.errDetail = some d → d ≠ "" →
      verifyLabelHandle r = Except.error d) ∧
    (r.ok = false → r.errDetail = none ∨ r.errDetail = some "" →
      verifyLabelHandle r = Except.error
        ("HTTP error! status: " ++ toString r.status)) := by
  refine ⟨?_, ?_, ?_⟩
  · intro hok
    simp [verifyLabelHandle, hok]
  · intro hok d hd hne
    simp [verifyLabelHandle, hok, jsOrString, hd, hne]
  · intro hok hd
    rcases hd with hd | hd <;> simp [verifyLabelHandle, hok, jsOrString, hd]

/-- Witness for C8 as amended: a concrete ok response returns its parsed
body. -/
theorem verifyLabel_response_handling_witness :
    verifyLabelHandle
        ⟨true, 200,
          ⟨true, [], ⟨true, ⟨none, none, none, none⟩, ""⟩, none⟩, none⟩ =
      Except.ok
        ⟨true, [], ⟨true, ⟨none, none, none, none⟩, ""⟩, none⟩ := by
  have h := verifyLabel_response_handling
    ⟨true, 200, ⟨true, [], ⟨true, ⟨none, none, none, none⟩, ""⟩, none⟩,
      none⟩
  exact h.1 rfl

/-- Claim C9: handleSubmit makes no call when no image is selected, calls
with exactly the singleton list of the selected image otherwise, and hence
never calls verifyLabel with an empty image list. -/
theorem handleSubmit_guard_and_singleton (img : File) (fd : FormData) :
    handleSubmit none fd = none ∧
    handleSubmit (some img) fd = some ([img], fd) ∧
    (∀ sel call, handleSubmit sel fd = some call →
      call.1 ≠ [] ∧ call.1.length = 1) := by
  refine ⟨rfl, rfl, ?_⟩
  intro sel call h
  cases sel with
  | none => exact Option.noConfusion h
  | some i =>
      simp only [handleSubmit, Option.some.injEq] at h
      rw [← h]
      exact ⟨by simp, rfl⟩

/-- Witness for C9: the concrete call for a concrete selected image has a
nonempty, length-one image list. -/
theorem handleSubmit_guard_and_singleton_witness :
    (([⟨"img.png"⟩], ⟨"", "", "", ""⟩) : List File × FormData).1 ≠ [] ∧
      (([⟨"img.png"⟩], ⟨"", "", "", ""⟩) :
        List File × FormData).1.length = 1 := by
  have h := handleSubmit_guard_and_singleton ⟨"img.png"⟩ ⟨"", "", "", ""⟩
  exact h.2.2 (some ⟨"img.png"⟩) ([⟨"img.png"⟩], ⟨"", "", "", ""⟩) rfl

/-- Claim C10: handleChange passes to onFormChange the form data with the
edited key set to the new value and every other key unchanged. -/
theorem handleChange_frame (fd : FormData) (k : FieldKey) (v : String)
    (k2 : FieldKey) :
    (handleChange fd k v).get k = v ∧
    (k2 ≠ k → (handleChange fd k v).get k2 = fd.get k2) := by
  constructor
  · cases k <;> rfl
  · intro h
    cases k <;> cases k2 <;> simp_all [handleChange, FormData.get]

/-- Witness for C10: editing the brand leaves the type unchanged and sets
the brand. -/
theorem handleChange_frame_witness :
    (handleChange ⟨"b", "t", "a", "v"⟩ .brand "new").get .brand = "new" ∧
      (handleChange ⟨"b", "t", "a", "v"⟩ .brand "new").get .type =
        (⟨"b", "t", "a", "v"⟩ : FormData).get .type := by
  have h := handleChange_frame ⟨"b", "t", "a", "v"⟩ .brand "new" .type
  exact ⟨h.1, h.2 (by decide)⟩

end TTB
